import Mathlib

/-!
# Verification of the mmmd animation/compositing core

Shallow embedding of `video.ts` (the animation file of the `mmmd`
repository): the ANSI style parser `parseAnsi`, the layout metrics,
the timeline planner and the per-frame transform / progress-bar logic,
together with theorems settling the specification's claims about them.
-/

namespace Mmmd

/-! ## Style parser (`parseAnsi`, video.ts lines 103-128)

A `Style` mirrors the TypeScript `interface Style`; absent boolean
fields are modelled as `false` (the rendering code only tests
truthiness, so `{bold: false}` and `{}` are indistinguishable). -/

structure Style where
  fg : Option String := none
  bold : Bool := false
  italic : Bool := false
  underline : Bool := false
  dim : Bool := false
deriving DecidableEq, Repr

structure Span where
  text : List Char
  style : Style
deriving DecidableEq, Repr

/-- The fixed 16-entry foreground palette (the `ANSI` record). -/
def ansiColor : Nat → Option String
  | 30 => some "#8899cc"
  | 31 => some "#ff5555"
  | 32 => some "#50fa7b"
  | 33 => some "#f1fa8c"
  | 34 => some "#6699ff"
  | 35 => some "#ff79c6"
  | 36 => some "#8be9fd"
  | 37 => some "#ffffff"
  | 90 => some "#8899cc"
  | 91 => some "#ff5555"
  | 92 => some "#50fa7b"
  | 93 => some "#f1fa8c"
  | 94 => some "#6699ff"
  | 95 => some "#ff79c6"
  | 96 => some "#8be9fd"
  | 97 => some "#ffffff"
  | _ => none

/-- One step of the code loop inside `parseAnsi`: apply a single numeric
code to the running style. -/
def applyCode (s : Style) (c : Nat) : Style :=
  if c = 0 then {}
  else if c = 1 then { s with bold := true }
  else if c = 2 then { s with dim := true }
  else if c = 3 then { s with italic := true }
  else if c = 4 then { s with underline := true }
  else if c = 22 then { s with bold := false, dim := false }
  else if c = 23 then { s with italic := false }
  else if c = 24 then { s with underline := false }
  else if c = 39 then { s with fg := none }
  else
    match ansiColor c with
    | some col => { s with fg := some col }
    | none => s

def applyCodes (s : Style) (cs : List Nat) : Style :=
  cs.foldl applyCode s

/-- Characters allowed inside the parameter list of the regex
`\u001b\[([0-9;]*)m`. -/
def isParamChar (c : Char) : Bool :=
  c.isDigit || c = ';'

/-- Scan the parameter list after `ESC [`: a run of `[0-9;]*` terminated
by `m`.  Returns the parameter characters and the remainder after `m`,
or `none` when the regex cannot match at this position. -/
def takeParams : List Char → Option (List Char × List Char)
  | [] => none
  | c :: rest =>
    if c = 'm' then some ([], rest)
    else if isParamChar c then
      match takeParams rest with
      | some (ps, r) => some (c :: ps, r)
      | none => none
    else none

/-- A complete escape sequence `ESC [ <params> m` at the head of the
input, if any: the leftmost-match discipline of `re.exec`. -/
def headEsc : List Char → Option (List Char × List Char)
  | c1 :: c2 :: rest => if c1 = '\x1b' ∧ c2 = '[' then takeParams rest else none
  | _ => none

/-- `"a;b".split(';')` on character lists. -/
def splitSemis : List Char → List (List Char)
  | [] => [[]]
  | c :: cs =>
    if c = ';' then [] :: splitSemis cs
    else
      match splitSemis cs with
      | [] => [[c]]
      | g :: gs => (c :: g) :: gs

/-- `Number` on a (non-empty) digit string. -/
def digitsToNat (l : List Char) : Nat :=
  l.foldl (fun a c => 10 * a + (c.toNat - '0'.toNat)) 0

/-- `seq.split(';').filter(Boolean).map(Number)`. -/
def parseCodes (ps : List Char) : List Nat :=
  (((splitSemis ps).filter (fun g => g ≠ [])).map digitsToNat)

theorem takeParams_eq_append {l ps r : List Char}
    (h : takeParams l = some (ps, r)) : l = ps ++ 'm' :: r := by
  induction l generalizing ps with
  | nil => simp [takeParams] at h
  | cons c rest ih =>
    by_cases hm : c = 'm'
    · simp [takeParams, hm] at h
      obtain ⟨rfl, rfl⟩ := h
      simp [hm]
    · by_cases hp : isParamChar c
      · simp only [takeParams, hm, if_false, hp, if_true] at h
        match hrec : takeParams rest with
        | some (ps2, r2) =>
          rw [hrec] at h
          simp at h
          obtain ⟨rfl, rfl⟩ := h
          simpa using ih hrec
        | none => rw [hrec] at h; simp at h
      · simp [takeParams, hm, hp] at h

theorem takeParams_length {l ps r : List Char}
    (h : takeParams l = some (ps, r)) : r.length < l.length := by
  have := takeParams_eq_append h
  subst this
  simp
  omega

theorem headEsc_length {l ps r : List Char}
    (h : headEsc l = some (ps, r)) : r.length < l.length := by
  match l with
  | [] => simp [headEsc] at h
  | [c] => simp [headEsc] at h
  | c1 :: c2 :: rest =>
    simp only [headEsc] at h
    split at h
    · have := takeParams_length h
      simp only [List.length_cons]
      omega
    · exact absurd h (by simp)

/-- The scanning loop of `parseAnsi`: `style` is the running style,
`acc` holds the plain characters seen since the last span boundary
(in reverse).  When no full escape sequence starts at the current
position the head character is plain text (the regex searches for its
next match strictly further right, and no match can start at the `[`
that follows a failed `ESC [`). -/
def parseAnsiAux (style : Style) (acc : List Char) (l : List Char) : List Span :=
  match h : headEsc l with
  | some (ps, r) =>
    let tail := parseAnsiAux (applyCodes style (parseCodes ps)) [] r
    if acc = [] then tail else ⟨acc.reverse, style⟩ :: tail
  | none =>
    match l with
    | [] => if acc = [] then [] else [⟨acc.reverse, style⟩]
    | c :: cs => parseAnsiAux style (c :: acc) cs
termination_by l.length
decreasing_by
  · exact headEsc_length h
  · simp

/-- `parseAnsi` (video.ts lines 103-128). -/
def parseAnsi (l : List Char) : List Span :=
  parseAnsiAux {} [] l

/-- The input line with every `ESC [ <params> m` escape sequence
removed (same leftmost-match discipline as the parser). -/
def stripAnsi (l : List Char) : List Char :=
  match h : headEsc l with
  | some (_, r) => stripAnsi r
  | none =>
    match l with
    | [] => []
    | c :: cs => c :: stripAnsi cs
termination_by l.length
decreasing_by
  · exact headEsc_length h
  · simp

/-- Whether the line contains any `ESC [ <params> m` escape sequence. -/
def hasEscape (l : List Char) : Bool :=
  match h : headEsc l with
  | some _ => true
  | none =>
    match l with
    | [] => false
    | _ :: cs => hasEscape cs
termination_by l.length
decreasing_by
  · simp

/-- Concatenation of the text of a span list, in order. -/
def spansText (ss : List Span) : List Char :=
  ss.foldr (fun s r => s.text ++ r) []

/-- The numeric codes that the code loop of `parseAnsi` acts upon. -/
def recognizedCode (c : Nat) : Bool :=
  decide (c ∈ ([0, 1, 2, 3, 4, 22, 23, 24, 39] : List Nat)) || (ansiColor c).isSome

/-! ### Unfolding lemmas for the scanning recursions -/

theorem parseAnsiAux_esc (style : Style) (acc l ps r : List Char)
    (h : headEsc l = some (ps, r)) :
    parseAnsiAux style acc l =
      if acc = [] then parseAnsiAux (applyCodes style (parseCodes ps)) [] r
      else ⟨acc.reverse, style⟩ :: parseAnsiAux (applyCodes style (parseCodes ps)) [] r := by
  rw [parseAnsiAux.eq_def]
  split
  next ps' r' h' => rw [h] at h'; cases h'; split <;> rfl
  next h' => rw [h] at h'; cases h'

@[simp] theorem parseAnsiAux_nil (style : Style) (acc : List Char) :
    parseAnsiAux style acc [] = if acc = [] then [] else [⟨acc.reverse, style⟩] := by
  rw [parseAnsiAux.eq_def]; rfl

theorem parseAnsiAux_cons (style : Style) (acc : List Char) (c : Char) (cs : List Char)
    (h : headEsc (c :: cs) = none) :
    parseAnsiAux style acc (c :: cs) = parseAnsiAux style (c :: acc) cs := by
  rw [parseAnsiAux.eq_def]
  split
  next ps' r' h' => rw [h] at h'; cases h'
  next h' => rfl

theorem stripAnsi_esc (l ps r : List Char) (h : headEsc l = some (ps, r)) :
    stripAnsi l = stripAnsi r := by
  rw [stripAnsi.eq_def]
  split
  next ps' r' h' => rw [h] at h'; cases h'; rfl
  next h' => rw [h] at h'; cases h'

@[simp] theorem stripAnsi_nil : stripAnsi [] = [] := by
  rw [stripAnsi.eq_def]; rfl

theorem stripAnsi_cons (c : Char) (cs : List Char) (h : headEsc (c :: cs) = none) :
    stripAnsi (c :: cs) = c :: stripAnsi cs := by
  rw [stripAnsi.eq_def]
  split
  next ps' r' h' => rw [h] at h'; cases h'
  next h' => rfl

theorem hasEscape_esc (l ps r : List Char) (h : headEsc l = some (ps, r)) :
    hasEscape l = true := by
  rw [hasEscape.eq_def]
  split
  next => rfl
  next h' => rw [h] at h'; cases h'

@[simp] theorem hasEscape_nil : hasEscape [] = false := by
  rw [hasEscape.eq_def]; rfl

theorem hasEscape_cons (c : Char) (cs : List Char) (h : headEsc (c :: cs) = none) :
    hasEscape (c :: cs) = hasEscape cs := by
  rw [hasEscape.eq_def]
  split
  next h' => rw [h] at h'; cases h'
  next => rfl

@[simp] theorem spansText_nil : spansText [] = [] := rfl

@[simp] theorem spansText_cons (s : Span) (ss : List Span) :
    spansText (s :: ss) = s.text ++ spansText ss := rfl

/-! ### Structural facts about the parser -/

/-- The scanning loop loses no visible character: the concatenated span
text is the pending text plus the remainder with escapes removed. -/
theorem spansText_parseAnsiAux (style : Style) (acc l : List Char) :
    spansText (parseAnsiAux style acc l) = acc.reverse ++ stripAnsi l := by
  induction style, acc, l using parseAnsiAux.induct with
  | case1 style l ps r h ih =>
    rw [parseAnsiAux_esc _ _ _ _ _ h, stripAnsi_esc _ _ _ h]
    simpa using ih
  | case2 style acc l ps r h hacc ih =>
    rw [parseAnsiAux_esc _ _ _ _ _ h, stripAnsi_esc _ _ _ h]
    simp [hacc]
    simpa using ih
  | case3 style _ _ => simp
  | case4 style acc _ hacc _ => simp [hacc]
  | case5 style acc c cs h _ ih =>
    rw [parseAnsiAux_cons _ _ _ _ h, stripAnsi_cons _ _ h]
    simp [ih]

/-- On an escape-free input the whole remainder becomes (at most) one
span carrying the running style. -/
theorem parseAnsiAux_no_escape (style : Style) (acc l : List Char)
    (h : hasEscape l = false) :
    parseAnsiAux style acc l =
      if acc = [] ∧ l = [] then [] else [⟨acc.reverse ++ l, style⟩] := by
  induction style, acc, l using parseAnsiAux.induct with
  | case1 style l ps r hesc ih => rw [hasEscape_esc _ _ _ hesc] at h; cases h
  | case2 style acc l ps r hesc hacc ih => rw [hasEscape_esc _ _ _ hesc] at h; cases h
  | case3 style _ _ => simp
  | case4 style acc _ hacc _ => simp [hacc]
  | case5 style acc c cs hne _ ih =>
    rw [hasEscape_cons _ _ hne] at h
    rw [parseAnsiAux_cons _ _ _ _ hne, ih h]
    simp

/-- Every span the scanning loop emits has non-empty text. -/
theorem parseAnsiAux_text_ne_nil (style : Style) (acc l : List Char) :
    ∀ s ∈ parseAnsiAux style acc l, s.text ≠ [] := by
  induction style, acc, l using parseAnsiAux.induct with
  | case1 style l ps r h ih =>
    rw [parseAnsiAux_esc _ _ _ _ _ h]
    simpa using ih
  | case2 style acc l ps r h hacc ih =>
    rw [parseAnsiAux_esc _ _ _ _ _ h]
    simp [hacc]
    simpa using ih
  | case3 style _ _ => simp
  | case4 style acc _ hacc _ => simp [hacc]
  | case5 style acc c cs h _ ih =>
    rw [parseAnsiAux_cons _ _ _ _ h]
    exact ih

/-! ### Claims about the style parser -/

/-- Claim C4: for every input line, concatenating the text fields of all
spans returned by `parseAnsi`, in order, equals the line with every
`ESC [ <params> m` escape sequence removed: no visible character is lost
or reordered. -/
theorem parseAnsi_text_roundtrip (l : List Char) :
    spansText (parseAnsi l) = stripAnsi l := by
  simpa using spansText_parseAnsiAux {} [] l

/-- Claim C5, counterexample: after `ESC[31m` (red foreground) the
sequence `ESC[m` with an empty parameter list does NOT reset the running
style — the span emitted after it still carries the red foreground, so
the style right after consuming `ESC[m` is not the empty style. -/
theorem emptyParams_not_reset_cex :
    parseAnsi ['\x1b', '[', '3', '1', 'm', 'A', '\x1b', '[', 'm', 'B'] =
      [⟨['A'], { fg := some "#ff5555" }⟩, ⟨['B'], { fg := some "#ff5555" }⟩] ∧
    ({ fg := some "#ff5555" } : Style) ≠ {} := by
  constructor
  · rw [parseAnsi,
      parseAnsiAux_esc {} [] ['\x1b', '[', '3', '1', 'm', 'A', '\x1b', '[', 'm', 'B']
        ['3', '1'] ['A', '\x1b', '[', 'm', 'B'] (by decide)]
    norm_num
    rw [parseAnsiAux_cons _ [] 'A' ['\x1b', '[', 'm', 'B'] (by decide),
      parseAnsiAux_esc _ ['A'] ['\x1b', '[', 'm', 'B'] [] ['B'] (by decide)]
    norm_num
    rw [parseAnsiAux_cons _ [] 'B' [] (by decide)]
    simp
    constructor <;> decide
  · decide

/-- Claim C5, amended: an escape sequence `ESC[m` whose parameter list is
empty applies no codes at all (`split(';').filter(Boolean)` drops the
empty string), so immediately after the parser consumes it the running
style is exactly the style accumulated before it, unchanged — not the
empty style. -/
theorem emptyParams_style_unchanged (style : Style) (acc rest : List Char) :
    parseAnsiAux style acc ('\x1b' :: '[' :: 'm' :: rest) =
      if acc = [] then parseAnsiAux style [] rest
      else ⟨acc.reverse, style⟩ :: parseAnsiAux style [] rest := by
  have h : headEsc ('\x1b' :: '[' :: 'm' :: rest) = some ([], rest) := by
    simp [headEsc, takeParams]
  rw [parseAnsiAux_esc _ _ _ _ _ h]
  have hcodes : applyCodes style (parseCodes []) = style := by
    simp [parseCodes, splitSemis, applyCodes]
  rw [hcodes]

/-- Claim C6, counterexample: the empty line contains no escape sequence
yet `parseAnsi` returns zero spans, not exactly one. -/
theorem empty_line_no_span_cex :
    hasEscape [] = false ∧ parseAnsi [] = [] := by
  refine ⟨hasEscape_nil, ?_⟩
  rw [parseAnsi, parseAnsiAux_nil]
  simp

/-- Claim C6, amended: every NON-EMPTY input line containing no
`ESC [ <params> m` escape sequence parses to exactly one span, whose
text is the whole line and whose style is the empty style (the empty
line parses to zero spans). -/
theorem no_escape_single_span (l : List Char)
    (h1 : hasEscape l = false) (h2 : l ≠ []) :
    parseAnsi l = [⟨l, {}⟩] := by
  rw [parseAnsi, parseAnsiAux_no_escape {} [] l h1]
  simp [h2]

theorem no_escape_single_span_witness :
    hasEscape ['h', 'i'] = false ∧ parseAnsi ['h', 'i'] = [⟨['h', 'i'], {}⟩] := by
  have h1 : hasEscape ['h', 'i'] = false := by
    rw [hasEscape_cons 'h' ['i'] (by decide), hasEscape_cons 'i' [] (by decide),
      hasEscape_nil]
  exact ⟨h1, no_escape_single_span ['h', 'i'] h1 (by decide)⟩

/-- Claim C9: unrecognized numeric codes (e.g. 99) leave the running
style unchanged, and — the parser being a total function that never
fails — all non-escape text surrounding them is preserved in the output
spans, for every input line. -/
theorem unknown_code_tolerance (st : Style) (c : Nat)
    (h : recognizedCode c = false) (l : List Char) :
    applyCode st c = st ∧ spansText (parseAnsi l) = stripAnsi l := by
  refine ⟨?_, by simpa using spansText_parseAnsiAux {} [] l⟩
  simp only [recognizedCode, Bool.or_eq_false_iff, decide_eq_false_iff_not,
    List.mem_cons, List.not_mem_nil, or_false, not_or] at h
  obtain ⟨⟨h0, h1, h2, h3, h4, h22, h23, h24, h39⟩, hcol⟩ := h
  cases hc : ansiColor c with
  | none => simp only [applyCode, h0, h1, h2, h3, h4, h22, h23, h24, h39, if_false, hc]
  | some col => rw [hc] at hcol; simp at hcol

theorem unknown_code_tolerance_witness :
    recognizedCode 99 = false ∧
      (applyCode { fg := some "#ff5555", bold := true } 99 =
          { fg := some "#ff5555", bold := true } ∧
        spansText (parseAnsi ['\x1b', '[', '9', '9', 'm', 'A']) =
          stripAnsi ['\x1b', '[', '9', '9', 'm', 'A']) :=
  ⟨by decide,
    unknown_code_tolerance { fg := some "#ff5555", bold := true } 99 (by decide)
      ['\x1b', '[', '9', '9', 'm', 'A']⟩

/-- Claim C10: every span returned by `parseAnsi` has non-empty text,
for every input line, even with adjacent escape sequences or escapes at
the start or end of the line. -/
theorem span_text_nonempty (l : List Char) :
    ∀ s ∈ parseAnsi l, s.text ≠ [] :=
  parseAnsiAux_text_ne_nil {} [] l

theorem span_text_nonempty_witness : (Span.mk ['a'] {}).text ≠ [] := by
  apply span_text_nonempty ['a']
  rw [parseAnsi, parseAnsiAux_cons _ [] 'a' [] (by decide), parseAnsiAux_nil]
  simp

/-! ## Layout metrics and timeline planner (video.ts `main`, lines 238-352)

All real-number arithmetic of the source is modelled exactly over `ℚ`;
`Math.round` rounds half toward positive infinity. -/

inductive SizeKey | sm | md | lg
deriving DecidableEq, Repr

inductive Aspect | square | landscape | portrait
deriving DecidableEq, Repr

inductive PaddingKey | sm | md | lg
deriving DecidableEq, Repr

/-- The resolved configuration reaching `main` (only the fields the
geometry and timeline depend on; colors, font name, quality and output
path do not enter any claim).  `charWidth` is the externally measured
width of the character `M` in the configured font
(`mx.measureText('M').width`). -/
structure Config where
  size : SizeKey
  aspect : Aspect
  padding : PaddingKey
  cols : ℕ
  fps : ℚ
  pageWait : ℚ
  overlap : ℚ
  charWidth : ℚ
deriving DecidableEq, Repr

/-- `Math.round`: half-integers round toward positive infinity. -/
def jsRound (q : ℚ) : ℤ := ⌊q + 1 / 2⌋

/-- `W` from the `SIZES` preset table. -/
def canvasW (cfg : Config) : ℤ :=
  match cfg.size, cfg.aspect with
  | .sm, .square => 540
  | .sm, .landscape => 720
  | .sm, .portrait => 540
  | .md, .square => 720
  | .md, .landscape => 960
  | .md, .portrait => 720
  | .lg, .square => 1080
  | .lg, .landscape => 1440
  | .lg, .portrait => 1080

/-- `H` from the `SIZES` preset table. -/
def canvasH (cfg : Config) : ℤ :=
  match cfg.size, cfg.aspect with
  | .sm, .square => 540
  | .sm, .landscape => 540
  | .sm, .portrait => 720
  | .md, .square => 720
  | .md, .landscape => 720
  | .md, .portrait => 960
  | .lg, .square => 1080
  | .lg, .landscape => 1080
  | .lg, .portrait => 1440

/-- `PAD` from the `PADDINGS` table. -/
def padSize (cfg : Config) : ℤ :=
  match cfg.padding with
  | .sm => 30
  | .md => 48
  | .lg => 64

/-- `FONT = o.size === 'sm' ? 12 : o.size === 'md' ? 13 : 15`. -/
def fontSize (cfg : Config) : ℤ :=
  match cfg.size with
  | .sm => 12
  | .md => 13
  | .lg => 15

/-- `LH = Math.round(FONT * 1.5)`. -/
def lineHeight (cfg : Config) : ℤ := jsRound ((fontSize cfg : ℚ) * (3 / 2))

/-- `WPAD = Math.round(PAD * 0.7)`. -/
def windowPad (cfg : Config) : ℤ := jsRound ((padSize cfg : ℚ) * (7 / 10))

/-- `TITLE_H = 32`. -/
def titleBarH : ℤ := 32

/-- `contentW = Math.ceil(o.cols * cw)`. -/
def contentWidth (cfg : Config) : ℤ := ⌈(cfg.cols : ℚ) * cfg.charWidth⌉

/-- `winW = contentW + WPAD * 2`. -/
def winWidth (cfg : Config) : ℤ := contentWidth cfg + windowPad cfg * 2

/-- `winH = H - PAD * 2`. -/
def winHeight (cfg : Config) : ℤ := canvasH cfg - padSize cfg * 2

/-- `visH = winH - TITLE_H - WPAD`. -/
def visibleH (cfg : Config) : ℤ := winHeight cfg - titleBarH - windowPad cfg

/-- The parsed document: `lines = rendered.split('\n').map(parseAnsi)`. -/
abbrev Document := List (List Span)

/-- `totalH = lines.length * LH`. -/
def totalContentH (cfg : Config) (doc : Document) : ℤ :=
  (doc.length : ℤ) * lineHeight cfg

/-- `maxScroll = Math.max(0, totalH - visH + WPAD)`. -/
def maxScroll (cfg : Config) (doc : Document) : ℤ :=
  max 0 (totalContentH cfg doc - visibleH cfg + windowPad cfg)

/-- `hasScroll = maxScroll > 0`. -/
def hasScroll (cfg : Config) (doc : Document) : Bool :=
  decide (0 < maxScroll cfg doc)

/-- `zoomScale = W / winW`. -/
def zoomScale (cfg : Config) : ℚ := (canvasW cfg : ℚ) / (winWidth cfg : ℚ)

/-- `pageHeight = Math.max(LH, visH - LH * o.overlap)`. -/
def pageHeight (cfg : Config) : ℚ :=
  max (lineHeight cfg : ℚ) ((visibleH cfg : ℚ) - (lineHeight cfg : ℚ) * cfg.overlap)

/-- `numPages = Math.ceil(maxScroll / pageHeight)`. -/
def numPages (cfg : Config) (doc : Document) : ℤ :=
  ⌈(maxScroll cfg doc : ℚ) / pageHeight cfg⌉

/-- `ZOOM_FRAMES = Math.round(o.fps * 0.6)`. -/
def zoomFramesN (cfg : Config) : ℤ := jsRound (cfg.fps * (3 / 5))

/-- `PAGE_SCROLL_FRAMES = Math.round(o.fps * 0.8)`. -/
def pageScrollFramesN (cfg : Config) : ℤ := jsRound (cfg.fps * (4 / 5))

/-- `PAGE_PAUSE_FRAMES = Math.round(o.fps * o.pageWait)`. -/
def pagePauseFramesN (cfg : Config) : ℤ := jsRound (cfg.fps * cfg.pageWait)

/-- `HOLD_AFTER_ZOOM = PAGE_PAUSE_FRAMES`. -/
def holdFramesN (cfg : Config) : ℤ := pagePauseFramesN cfg

/-- `scrollFrames = hasScroll ? numPages * (PAGE_SCROLL_FRAMES + PAGE_PAUSE_FRAMES) : 0`. -/
def scrollFramesN (cfg : Config) (doc : Document) : ℤ :=
  if hasScroll cfg doc then
    numPages cfg doc * (pageScrollFramesN cfg + pagePauseFramesN cfg)
  else 0

/-- `total = ZOOM_FRAMES + HOLD_AFTER_ZOOM + scrollFrames
      + (hasScroll ? ZOOM_FRAMES : Math.round(o.fps * 0.3))`. -/
def totalFramesN (cfg : Config) (doc : Document) : ℤ :=
  zoomFramesN cfg + holdFramesN cfg + scrollFramesN cfg doc +
    (if hasScroll cfg doc then zoomFramesN cfg else jsRound (cfg.fps * (3 / 10)))

/-- `scrollStart = ZOOM_FRAMES + HOLD_AFTER_ZOOM`. -/
def scrollStartF (cfg : Config) : ℤ := zoomFramesN cfg + holdFramesN cfg

/-- `scrollEnd = scrollStart + scrollFrames`. -/
def scrollEndF (cfg : Config) (doc : Document) : ℤ :=
  scrollStartF cfg + scrollFramesN cfg doc

/-- The per-frame transform of the compositing loop (video.ts lines
307-352): `(zoom, scrollY)` as a function of the frame index. -/
def frameZoomScroll (cfg : Config) (doc : Document) (f : ℤ) : ℚ × ℚ :=
  if f < zoomFramesN cfg then
    let p : ℚ := (f : ℚ) / (zoomFramesN cfg : ℚ)
    let ease := 1 - (1 - p) ^ 3
    (1 + (zoomScale cfg - 1) * ease, 0)
  else if f < scrollStartF cfg then
    (zoomScale cfg, 0)
  else if f < scrollEndF cfg doc then
    let scrollFrame := f - scrollStartF cfg
    let pageLen := pageScrollFramesN cfg + pagePauseFramesN cfg
    let currentPage : ℤ := ⌊(scrollFrame : ℚ) / (pageLen : ℚ)⌋
    let frameInPage := scrollFrame % pageLen
    let prevPageScroll : ℚ := (currentPage : ℚ) * pageHeight cfg
    if frameInPage < pageScrollFramesN cfg then
      let p : ℚ := (frameInPage : ℚ) / (pageScrollFramesN cfg : ℚ)
      let ease := 1 - (1 - p) ^ 3
      (zoomScale cfg, min (maxScroll cfg doc : ℚ) (prevPageScroll + pageHeight cfg * ease))
    else
      (zoomScale cfg, min (maxScroll cfg doc : ℚ) (prevPageScroll + pageHeight cfg))
  else if hasScroll cfg doc then
    let p : ℚ := ((f - scrollEndF cfg doc : ℤ) : ℚ) / (zoomFramesN cfg : ℚ)
    let ease := 1 - (1 - p) ^ 3
    (zoomScale cfg - (zoomScale cfg - 1) * ease, (maxScroll cfg doc : ℚ))
  else
    (1, 0)

/-- The progress-bar state of one frame (video.ts lines 441-455):
`none` models the sentinel `-1` (bar not drawn); every value the source
assigns inside the two active branches is `≥ 0` there, so the bar is
drawn exactly when this is `some`. -/
def barProgress (cfg : Config) (doc : Document) (f : ℤ) : Option ℚ :=
  if zoomFramesN cfg ≤ f ∧ f < scrollStartF cfg then
    some (((f - zoomFramesN cfg : ℤ) : ℚ) / (holdFramesN cfg : ℚ))
  else if scrollStartF cfg ≤ f ∧ f < scrollEndF cfg doc then
    let scrollFrame := f - scrollStartF cfg
    let pageLen := pageScrollFramesN cfg + pagePauseFramesN cfg
    let frameInPage := scrollFrame % pageLen
    if pageScrollFramesN cfg ≤ frameInPage then
      some (((frameInPage - pageScrollFramesN cfg : ℤ) : ℚ) / (pagePauseFramesN cfg : ℚ))
    else none
  else none

/-- The clamped scroll target the pause sub-phase of page `k` holds:
`Math.min(maxScroll, prevPageScroll + pageHeight)` with
`prevPageScroll = k * pageHeight` (video.ts line 341). -/
def pageTarget (cfg : Config) (doc : Document) (k : ℤ) : ℚ :=
  min (maxScroll cfg doc : ℚ) (((k : ℚ) + 1) * pageHeight cfg)

/-! ### Phase predicates, following the phase schedule of the spec -/

def inZoomInPhase (cfg : Config) (f : ℤ) : Prop :=
  0 ≤ f ∧ f < zoomFramesN cfg

def inHoldPhase (cfg : Config) (f : ℤ) : Prop :=
  zoomFramesN cfg ≤ f ∧ f < scrollStartF cfg

def inScrollSub (cfg : Config) (doc : Document) (f : ℤ) : Prop :=
  scrollStartF cfg ≤ f ∧ f < scrollEndF cfg doc ∧
    (f - scrollStartF cfg) % (pageScrollFramesN cfg + pagePauseFramesN cfg) <
      pageScrollFramesN cfg

def inPauseSub (cfg : Config) (doc : Document) (f : ℤ) : Prop :=
  scrollStartF cfg ≤ f ∧ f < scrollEndF cfg doc ∧
    pageScrollFramesN cfg ≤
      (f - scrollStartF cfg) % (pageScrollFramesN cfg + pagePauseFramesN cfg)

def inZoomOutOrFinal (cfg : Config) (doc : Document) (f : ℤ) : Prop :=
  scrollEndF cfg doc ≤ f

/-! ### Concrete configurations and documents used as test inputs -/

/-- The `DEFAULTS` of the source, with a measured character width of 7
pixels. -/
def cfgDefault : Config :=
  { size := .md, aspect := .landscape, padding := .md, cols := 80,
    fps := 30, pageWait := 6, overlap := 4, charWidth := 7 }

/-- The default configuration at the minimum allowed frame rate. -/
def cfgFpsOne : Config := { cfgDefault with fps := 1 }

def doc1 : Document := List.replicate 1 []
def doc27 : Document := List.replicate 27 []
def doc30 : Document := List.replicate 30 []

/-! ### Arithmetic facts about the metrics -/

theorem jsRound_nonneg {q : ℚ} (h : 0 ≤ q) : 0 ≤ jsRound q := by
  rw [jsRound]
  exact Int.le_floor.mpr (by push_cast; linarith)

theorem maxScroll_nonneg (cfg : Config) (doc : Document) : 0 ≤ maxScroll cfg doc :=
  le_max_left _ _

theorem lineHeight_pos (cfg : Config) : 0 < lineHeight cfg := by
  have h1 : (1 : ℤ) ≤ lineHeight cfg := by
    cases h : cfg.size <;>
      simp only [lineHeight, fontSize, h, jsRound] <;>
      exact Int.le_floor.mpr (by norm_num)
  omega

theorem pageHeight_pos (cfg : Config) : 0 < pageHeight cfg :=
  lt_of_lt_of_le (by exact_mod_cast lineHeight_pos cfg) (le_max_left _ _)

theorem numPages_nonneg (cfg : Config) (doc : Document) : 0 ≤ numPages cfg doc :=
  Int.ceil_nonneg
    (div_nonneg (by exact_mod_cast maxScroll_nonneg cfg doc)
      (le_of_lt (pageHeight_pos cfg)))

theorem fps_nonneg {cfg : Config} (hf : 1 ≤ cfg.fps) : 0 ≤ cfg.fps :=
  le_trans zero_le_one hf

theorem pageScrollFrames_nonneg {cfg : Config} (hf : 1 ≤ cfg.fps) :
    0 ≤ pageScrollFramesN cfg :=
  jsRound_nonneg (by nlinarith [fps_nonneg hf])

theorem pagePauseFrames_nonneg {cfg : Config} (hf : 1 ≤ cfg.fps)
    (hw : 0 ≤ cfg.pageWait) : 0 ≤ pagePauseFramesN cfg :=
  jsRound_nonneg (mul_nonneg (fps_nonneg hf) hw)

theorem scrollFrames_nonneg {cfg : Config} (doc : Document) (hf : 1 ≤ cfg.fps)
    (hw : 0 ≤ cfg.pageWait) : 0 ≤ scrollFramesN cfg doc := by
  rw [scrollFramesN]
  split
  · exact mul_nonneg (numPages_nonneg cfg doc)
      (by have := pageScrollFrames_nonneg hf; have := pagePauseFrames_nonneg hf hw; omega)
  · omega

/-! ### Claims about the layout metrics and the timeline planner -/

/-- Claim C1, counterexample: with the default configuration and a
27-line document, `totalH = 540 ≤ 558 = visH`, yet the bottom-margin
term `WPAD` makes `maxScroll = 540 - 558 + 34 = 16 > 0` and
`hasScroll = true` — the claim's second clause fails. -/
theorem scroll_bound_cex :
    totalContentH cfgDefault doc27 ≤ visibleH cfgDefault ∧
      maxScroll cfgDefault doc27 = 16 ∧ hasScroll cfgDefault doc27 = true := by
  refine ⟨?_, ?_, ?_⟩ <;>
    norm_num [totalContentH, visibleH, winHeight, canvasH, padSize, titleBarH,
      windowPad, lineHeight, fontSize, maxScroll, hasScroll, jsRound, cfgDefault,
      doc27]

/-- Claim C1, amended: for every Document and Configuration,
`maxScroll ≥ 0`; and whenever `totalH + WPAD ≤ visH` (the window
padding enters `maxScroll` as a bottom margin), `maxScroll = 0` and
`hasScroll = false`. -/
theorem scroll_bound (cfg : Config) (doc : Document) :
    0 ≤ maxScroll cfg doc ∧
      (totalContentH cfg doc + windowPad cfg ≤ visibleH cfg →
        maxScroll cfg doc = 0 ∧ hasScroll cfg doc = false) := by
  refine ⟨le_max_left _ _, fun h => ?_⟩
  have hx : totalContentH cfg doc - visibleH cfg + windowPad cfg ≤ 0 := by omega
  have hms : maxScroll cfg doc = 0 := by
    rw [maxScroll, max_eq_left hx]
  exact ⟨hms, by simp [hasScroll, hms]⟩

theorem scroll_bound_witness :
    totalContentH cfgDefault doc1 + windowPad cfgDefault ≤ visibleH cfgDefault ∧
      maxScroll cfgDefault doc1 = 0 ∧ hasScroll cfgDefault doc1 = false := by
  have h : totalContentH cfgDefault doc1 + windowPad cfgDefault ≤ visibleH cfgDefault := by
    norm_num [totalContentH, visibleH, winHeight, canvasH, padSize, titleBarH,
      windowPad, lineHeight, fontSize, jsRound, cfgDefault, doc1]
  exact ⟨h, (scroll_bound cfgDefault doc1).2 h⟩

/-- Claim C2: when `hasScroll`, `numPages = ⌈maxScroll / pageHeight⌉`;
the per-page clamped scroll targets `min(maxScroll, (k+1)·pageHeight)`
are strictly increasing over `k = 0 .. numPages-1`; and the final
page's target equals `maxScroll` exactly. -/
theorem page_targets (cfg : Config) (doc : Document)
    (_h : hasScroll cfg doc = true) :
    numPages cfg doc = ⌈(maxScroll cfg doc : ℚ) / pageHeight cfg⌉ ∧
      (∀ j k : ℤ, 0 ≤ j → j < k → k < numPages cfg doc →
        pageTarget cfg doc j < pageTarget cfg doc k) ∧
      pageTarget cfg doc (numPages cfg doc - 1) = (maxScroll cfg doc : ℚ) := by
  have hp : 0 < pageHeight cfg := pageHeight_pos cfg
  have key1 : (maxScroll cfg doc : ℚ) ≤ (numPages cfg doc : ℚ) * pageHeight cfg := by
    have h1 : (maxScroll cfg doc : ℚ) / pageHeight cfg ≤ (numPages cfg doc : ℚ) :=
      Int.le_ceil _
    calc (maxScroll cfg doc : ℚ)
        = (maxScroll cfg doc : ℚ) / pageHeight cfg * pageHeight cfg := by field_simp
      _ ≤ (numPages cfg doc : ℚ) * pageHeight cfg :=
          mul_le_mul_of_nonneg_right h1 (le_of_lt hp)
  have key2 : ((numPages cfg doc : ℚ) - 1) * pageHeight cfg <
      (maxScroll cfg doc : ℚ) := by
    have h1 : ((numPages cfg doc : ℚ)) < (maxScroll cfg doc : ℚ) / pageHeight cfg + 1 :=
      Int.ceil_lt_add_one _
    have h2 : (numPages cfg doc : ℚ) - 1 < (maxScroll cfg doc : ℚ) / pageHeight cfg := by
      linarith
    calc ((numPages cfg doc : ℚ) - 1) * pageHeight cfg
        < (maxScroll cfg doc : ℚ) / pageHeight cfg * pageHeight cfg :=
          mul_lt_mul_of_pos_right h2 hp
      _ = (maxScroll cfg doc : ℚ) := by field_simp
  refine ⟨rfl, ?_, ?_⟩
  · intro j k hj hjk hkn
    have hj1 : ((j : ℚ) + 1) * pageHeight cfg ≤
        ((numPages cfg doc : ℚ) - 1) * pageHeight cfg := by
      apply mul_le_mul_of_nonneg_right _ (le_of_lt hp)
      have hjn : (j : ℤ) + 1 ≤ numPages cfg doc - 1 := by omega
      have hjq : ((j + 1 : ℤ) : ℚ) ≤ ((numPages cfg doc - 1 : ℤ) : ℚ) := by
        exact_mod_cast hjn
      push_cast at hjq
      linarith
    have hjM : ((j : ℚ) + 1) * pageHeight cfg < (maxScroll cfg doc : ℚ) :=
      lt_of_le_of_lt hj1 key2
    have htj : pageTarget cfg doc j = ((j : ℚ) + 1) * pageHeight cfg :=
      min_eq_right (le_of_lt hjM)
    rw [htj, pageTarget]
    apply lt_min hjM
    apply mul_lt_mul_of_pos_right _ hp
    have : (j : ℚ) < (k : ℚ) := by exact_mod_cast hjk
    linarith
  · rw [pageTarget]
    apply min_eq_left
    calc (maxScroll cfg doc : ℚ) ≤ (numPages cfg doc : ℚ) * pageHeight cfg := key1
      _ = (((numPages cfg doc - 1 : ℤ) : ℚ) + 1) * pageHeight cfg := by push_cast; ring

theorem page_targets_witness :
    hasScroll cfgDefault doc30 = true ∧
      pageTarget cfgDefault doc30 (numPages cfgDefault doc30 - 1) =
        (maxScroll cfgDefault doc30 : ℚ) := by
  have h : hasScroll cfgDefault doc30 = true := by
    norm_num [hasScroll, maxScroll, totalContentH, visibleH, winHeight, canvasH,
      padSize, titleBarH, windowPad, lineHeight, fontSize, jsRound, cfgDefault, doc30]
  exact ⟨h, (page_targets cfgDefault doc30 h).2.2⟩

/-- Claim C3, counterexample: at `fps = 1` the zoom-in phase has a
single frame (`ZOOM_FRAMES = round(0.6) = 1`), whose zoom scale is
exactly 1, while `targetZoom = 960/628 = 240/157 ≈ 1.53`:  the zoom at
the last frame of zoom-in misses `targetZoom` by more than `1/2`, far
beyond any floating-point tolerance. -/
theorem zoom_tolerance_cex :
    zoomFramesN cfgFpsOne = 1 ∧
      (frameZoomScroll cfgFpsOne doc1 (zoomFramesN cfgFpsOne - 1)).1 = 1 ∧
      zoomScale cfgFpsOne = 240 / 157 ∧
      (1 / 2 : ℚ) <
        zoomScale cfgFpsOne -
          (frameZoomScroll cfgFpsOne doc1 (zoomFramesN cfgFpsOne - 1)).1 := by
  have hZF : zoomFramesN cfgFpsOne = 1 := by
    norm_num [zoomFramesN, jsRound, cfgFpsOne, cfgDefault]
  have hzs : zoomScale cfgFpsOne = 240 / 157 := by
    norm_num [zoomScale, canvasW, winWidth, contentWidth, windowPad, padSize,
      jsRound, cfgFpsOne, cfgDefault]
  have hframe : (frameZoomScroll cfgFpsOne doc1 (zoomFramesN cfgFpsOne - 1)).1 = 1 := by
    rw [hZF]
    norm_num [frameZoomScroll, hZF]
  refine ⟨hZF, hframe, hzs, ?_⟩
  rw [hframe, hzs]
  norm_num

/-- Claim C3, amended: the zoom scale at frame 0 of zoom-in is exactly
1; the zoom scale at the last zoom-in frame (index `ZOOM_FRAMES - 1`)
is exactly `targetZoom - (targetZoom - 1)/ZOOM_FRAMES³` — it approaches
`targetZoom` as `ZOOM_FRAMES` grows but does not reach it (the zoom
equals `targetZoom` only from the hold phase onward). -/
theorem zoom_endpoints (cfg : Config) (doc : Document)
    (h : 1 ≤ zoomFramesN cfg) :
    (frameZoomScroll cfg doc 0).1 = 1 ∧
      (frameZoomScroll cfg doc (zoomFramesN cfg - 1)).1 =
        zoomScale cfg - (zoomScale cfg - 1) / (zoomFramesN cfg : ℚ) ^ 3 := by
  have h0 : (0 : ℤ) < zoomFramesN cfg := by omega
  have hZ : ((zoomFramesN cfg : ℤ) : ℚ) ≠ 0 := by
    exact_mod_cast (by omega : zoomFramesN cfg ≠ 0)
  constructor
  · simp only [frameZoomScroll]
    rw [if_pos h0]
    norm_num
  · have hc : zoomFramesN cfg - 1 < zoomFramesN cfg := by omega
    simp only [frameZoomScroll]
    rw [if_pos hc]
    push_cast
    field_simp
    ring

theorem zoom_endpoints_witness :
    1 ≤ zoomFramesN cfgDefault ∧
      ((frameZoomScroll cfgDefault doc1 0).1 = 1 ∧
        (frameZoomScroll cfgDefault doc1 (zoomFramesN cfgDefault - 1)).1 =
          zoomScale cfgDefault -
            (zoomScale cfgDefault - 1) / (zoomFramesN cfgDefault : ℚ) ^ 3) := by
  have h : 1 ≤ zoomFramesN cfgDefault := by
    norm_num [zoomFramesN, jsRound, cfgDefault]
  exact ⟨h, zoom_endpoints cfgDefault doc1 h⟩

/-- Claim C7: whenever `hasScroll = false` the planner produces zero
pages, and the total frame count is the zoom-in duration plus the hold
duration (emitted even without scrolling) plus `round(fps × 0.3)`. -/
theorem no_scroll_frame_count (cfg : Config) (doc : Document)
    (h : hasScroll cfg doc = false) :
    numPages cfg doc = 0 ∧
      totalFramesN cfg doc =
        zoomFramesN cfg + holdFramesN cfg + jsRound (cfg.fps * (3 / 10)) := by
  have hms : maxScroll cfg doc = 0 := by
    have h1 : ¬ (0 < maxScroll cfg doc) := by simpa [hasScroll] using h
    have h2 := maxScroll_nonneg cfg doc
    omega
  constructor
  · rw [numPages, hms]
    norm_num
  · rw [totalFramesN, scrollFramesN, h]
    simp

theorem no_scroll_frame_count_witness :
    hasScroll cfgDefault doc1 = false ∧
      (numPages cfgDefault doc1 = 0 ∧
        totalFramesN cfgDefault doc1 =
          zoomFramesN cfgDefault + holdFramesN cfgDefault +
            jsRound (cfgDefault.fps * (3 / 10))) := by
  have h : hasScroll cfgDefault doc1 = false := by
    norm_num [hasScroll, maxScroll, totalContentH, visibleH, winHeight, canvasH,
      padSize, titleBarH, windowPad, lineHeight, fontSize, jsRound, cfgDefault, doc1]
  exact ⟨h, no_scroll_frame_count cfgDefault doc1 h⟩

/-- Claim C8: for a validated configuration (`fps ≥ 1`,
`pageWait ≥ 0`), the progress bar is drawn iff the frame lies in the
initial hold phase or in a page's pause sub-phase, with progress equal
to elapsed frames in that hold/pause divided by its duration; it is
never drawn during the zoom-in phase, a scroll sub-phase, or the
zoom-out/final phase. -/
theorem progress_bar_phases (cfg : Config) (doc : Document) (f : ℤ)
    (hf : 1 ≤ cfg.fps) (hw : 0 ≤ cfg.pageWait) :
    ((barProgress cfg doc f).isSome = true ↔
        inHoldPhase cfg f ∨ inPauseSub cfg doc f) ∧
      (inHoldPhase cfg f →
        barProgress cfg doc f =
          some (((f - zoomFramesN cfg : ℤ) : ℚ) / (holdFramesN cfg : ℚ))) ∧
      (inPauseSub cfg doc f →
        barProgress cfg doc f =
          some ((((f - scrollStartF cfg) %
              (pageScrollFramesN cfg + pagePauseFramesN cfg) -
                pageScrollFramesN cfg : ℤ) : ℚ) / (pagePauseFramesN cfg : ℚ))) ∧
      (inZoomInPhase cfg f → barProgress cfg doc f = none) ∧
      (inScrollSub cfg doc f → barProgress cfg doc f = none) ∧
      (inZoomOutOrFinal cfg doc f → barProgress cfg doc f = none) := by
  have hhold : 0 ≤ holdFramesN cfg := pagePauseFrames_nonneg hf hw
  have hsf : 0 ≤ scrollFramesN cfg doc := scrollFrames_nonneg doc hf hw
  by_cases c1 : zoomFramesN cfg ≤ f ∧ f < scrollStartF cfg
  · have hb : barProgress cfg doc f =
        some (((f - zoomFramesN cfg : ℤ) : ℚ) / (holdFramesN cfg : ℚ)) := by
      simp only [barProgress]
      rw [if_pos c1]
    refine ⟨?_, fun _ => hb, ?_, ?_, ?_, ?_⟩
    · rw [hb]
      simp only [Option.isSome_some, true_iff]
      exact Or.inl c1
    · rintro ⟨hp1, _, _⟩
      exact absurd c1.2 (by omega)
    · rintro ⟨_, hz⟩
      exact absurd c1.1 (by omega)
    · rintro ⟨hs1, _, _⟩
      exact absurd c1.2 (by omega)
    · intro hz
      rw [inZoomOutOrFinal, scrollEndF] at hz
      exact absurd c1.2 (by omega)
  · by_cases c2 : scrollStartF cfg ≤ f ∧ f < scrollEndF cfg doc
    · by_cases c3 : pageScrollFramesN cfg ≤
          (f - scrollStartF cfg) % (pageScrollFramesN cfg + pagePauseFramesN cfg)
      · have hb : barProgress cfg doc f =
            some ((((f - scrollStartF cfg) %
                (pageScrollFramesN cfg + pagePauseFramesN cfg) -
                  pageScrollFramesN cfg : ℤ) : ℚ) / (pagePauseFramesN cfg : ℚ)) := by
          simp only [barProgress]
          rw [if_neg c1, if_pos c2, if_pos c3]
        refine ⟨?_, ?_, fun _ => hb, ?_, ?_, ?_⟩
        · rw [hb]
          simp only [Option.isSome_some, true_iff]
          exact Or.inr ⟨c2.1, c2.2, c3⟩
        · intro hh
          exact absurd (And.intro hh.1 hh.2) c1
        · rintro ⟨hz1, hz2⟩
          rw [scrollStartF] at c2
          exact absurd c2.1 (by omega)
        · rintro ⟨_, _, hs3⟩
          exact absurd c3 (by omega)
        · intro hz
          rw [inZoomOutOrFinal] at hz
          exact absurd c2.2 (by omega)
      · have hb : barProgress cfg doc f = none := by
          simp only [barProgress]
          rw [if_neg c1, if_pos c2, if_neg c3]
        refine ⟨?_, ?_, ?_, ?_, fun _ => hb, ?_⟩
        · rw [hb]
          simp only [Option.isSome_none, Bool.false_eq_true, false_iff]
          rintro (hh | hp)
          · exact c1 ⟨hh.1, hh.2⟩
          · exact c3 hp.2.2
        · intro hh
          exact absurd (And.intro hh.1 hh.2) c1
        · rintro ⟨_, _, hp3⟩
          exact absurd hp3 c3
        · rintro ⟨hz1, hz2⟩
          rw [scrollStartF] at c2
          exact absurd c2.1 (by omega)
        · intro hz
          rw [inZoomOutOrFinal] at hz
          exact absurd c2.2 (by omega)
    · have hb : barProgress cfg doc f = none := by
        simp only [barProgress]
        rw [if_neg c1, if_neg c2]
      refine ⟨?_, ?_, ?_, fun _ => hb, fun _ => hb, fun _ => hb⟩
      · rw [hb]
        simp only [Option.isSome_none, Bool.false_eq_true, false_iff]
        rintro (hh | hp)
        · exact c1 ⟨hh.1, hh.2⟩
        · exact c2 ⟨hp.1, hp.2.1⟩
      · intro hh
        exact absurd (And.intro hh.1 hh.2) c1
      · rintro ⟨hp1, hp2, _⟩
        exact absurd (And.intro hp1 hp2) c2

theorem progress_bar_phases_witness :
    (1 : ℚ) ≤ cfgDefault.fps ∧ (0 : ℚ) ≤ cfgDefault.pageWait ∧
      inHoldPhase cfgDefault 20 ∧
      barProgress cfgDefault doc30 20 =
        some (((20 - zoomFramesN cfgDefault : ℤ) : ℚ) / (holdFramesN cfgDefault : ℚ)) := by
  have hf : (1 : ℚ) ≤ cfgDefault.fps := by norm_num [cfgDefault]
  have hw : (0 : ℚ) ≤ cfgDefault.pageWait := by norm_num [cfgDefault]
  have hh : inHoldPhase cfgDefault 20 := by
    constructor <;>
      norm_num [zoomFramesN, scrollStartF, holdFramesN, pagePauseFramesN, jsRound,
        cfgDefault]
  exact ⟨hf, hw, hh, (progress_bar_phases cfgDefault doc30 20 hf hw).2.1 hh⟩

end Mmmd
